import Mathlib

/-!
Shallow embedding of `elephant-php/net` (src/src/lib.rs), a minimal
synchronous HTTP client extension.  Mappings (`HashMap<String,String>`)
are modelled as association lists with unique-key insert semantics;
the external collaborators (the `ureq` transport, the `serde_json`
parser and the `url` parser) are modelled as opaque function
parameters, exactly as the spec treats them.  Machine integers are
modelled as `Int`/`Nat` with explicit `% 2^64` where Rust casts wrap.
-/

namespace ElephantNet

/-- Rust's `str::to_lowercase`, restricted to the ASCII mapping (the
two coincide on every string this library compares; stated character
by character so the kernel can evaluate it). -/
def strLower (s : String) : String :=
  String.mk (s.data.map Char.toLower)

/-- Rust's `str::to_uppercase`, restricted to the ASCII mapping. -/
def strUpper (s : String) : String :=
  String.mk (s.data.map Char.toUpper)

/-- Association-list model of `HashMap<String, String>`. -/
abbrev HMap := List (String × String)

/-- `HashMap::get` (keys are unique, first match). -/
def hmGet (m : HMap) (k : String) : Option String :=
  match m with
  | [] => none
  | p :: rest => if p.1 = k then some p.2 else hmGet rest k

/-- `HashMap::contains_key`. -/
def hmContains (m : HMap) (k : String) : Bool :=
  m.any (fun p => p.1 = k)

/-- `HashMap::insert`: replace the value if the key is present, else add the entry. -/
def hmInsert (m : HMap) (k v : String) : HMap :=
  if hmContains m k then m.map (fun p => if p.1 = k then (k, v) else p)
  else m ++ [(k, v)]

/-- The `HttpResponse` struct (lib.rs lines 7-11): status, headers, body. -/
structure HttpResponse where
  status : Int
  headers : HMap
  body : String
deriving DecidableEq, Repr

/-- `HttpResponse::__construct` (lib.rs lines 15-21). -/
def HttpResponse.construct : HttpResponse :=
  { status := 200, headers := [], body := "" }

/-- `HttpResponse::status` (lib.rs lines 24-26). -/
def HttpResponse.statusGet (r : HttpResponse) : Int :=
  r.status

/-- `HttpResponse::headers` (lib.rs lines 29-31): look up the lower-cased name. -/
def HttpResponse.headersGet (r : HttpResponse) (name : String) : Option String :=
  hmGet r.headers (strLower name)

/-- `HttpResponse::body` (lib.rs lines 34-36). -/
def HttpResponse.bodyGet (r : HttpResponse) : String :=
  r.body

/-- The structured value produced by the external JSON parser
(`serde_json::Value`).  Numbers are modelled as integers: every number
the claims exercise is an integer, and `to_string` on an integral
`serde_json` number prints it in decimal exactly as `toString` does. -/
inductive Json where
  | null : Json
  | bool : Bool → Json
  | num : Int → Json
  | str : String → Json
  | arr : List Json → Json
  | obj : List (String × Json) → Json

def Json.isObj : Json → Bool
  | .obj _ => true
  | _ => false

/-- One character of `serde_json`'s string escaping. -/
def jsonEscapeChar (c : Char) : String :=
  if c = '"' then "\\\""
  else if c = '\\' then "\\\\"
  else if c = '\x08' then "\\b"
  else if c = '\x0c' then "\\f"
  else if c = '\n' then "\\n"
  else if c = '\r' then "\\r"
  else if c = '\t' then "\\t"
  else if c.toNat < 0x20 then
    "\\u00" ++ String.singleton (Nat.digitChar (c.toNat / 16))
            ++ String.singleton (Nat.digitChar (c.toNat % 16))
  else String.singleton c

/-- `serde_json`'s serialization of a string (quotes included). -/
def jsonSerStr (s : String) : String :=
  "\"" ++ String.join (s.data.map jsonEscapeChar) ++ "\""

mutual
/-- `serde_json::Value::to_string`: compact canonical JSON text. -/
def Json.serialize : Json → String
  | .null => "null"
  | .bool true => "true"
  | .bool false => "false"
  | .num n => toString n
  | .str s => jsonSerStr s
  | .arr xs => "[" ++ serializeArr xs ++ "]"
  | .obj m => "\x7b" ++ serializeObj m ++ "\x7d"

def serializeArr : List Json → String
  | [] => ""
  | [x] => x.serialize
  | x :: y :: rest => x.serialize ++ "," ++ serializeArr (y :: rest)

def serializeObj : List (String × Json) → String
  | [] => ""
  | [p] => jsonSerStr p.1 ++ ":" ++ p.2.serialize
  | p :: q :: rest => jsonSerStr p.1 ++ ":" ++ p.2.serialize ++ "," ++ serializeObj (q :: rest)
end

/-- One step of the member loop in `HttpResponse::json`:
`result.insert(k, v.to_string())`. -/
def jsonIns (acc : HMap) (p : String × Json) : HMap :=
  hmInsert acc p.1 p.2.serialize

/-- `HttpResponse::json` (lib.rs lines 39-52).  The external
`serde_json::from_str` parser is passed in as `parse`; on success, if
the top-level value is an object each member is inserted re-serialized,
otherwise the result mapping stays empty; on failure the parser's
message is wrapped in a `JSON parse error`. -/
def HttpResponse.json (parse : String → Except String Json) (r : HttpResponse) :
    Except String HMap :=
  match parse r.body with
  | .ok value =>
      .ok (match value with
           | .obj m => m.foldl jsonIns []
           | _ => [])
  | .error e => .error ("JSON parse error: " ++ e)

/-- The HTTP verbs the dispatcher's `match` recognizes (the `ureq`
constructors it calls, lib.rs lines 66-71).  Note: there is no
`OPTIONS` constructor, because the `match` has no `"OPTIONS"` arm. -/
inductive Method where
  | GET | POST | PUT | DELETE | PATCH | HEAD
deriving DecidableEq, Repr

/-- Method resolution of `request` (lib.rs lines 65-73): uppercase the
method string and match; anything else is the `Unsupported method`
error carrying the original string. -/
def resolveMethod (method : String) : Except String Method :=
  match strUpper method with
  | "GET" => .ok .GET
  | "POST" => .ok .POST
  | "PUT" => .ok .PUT
  | "DELETE" => .ok .DELETE
  | "PATCH" => .ok .PATCH
  | "HEAD" => .ok .HEAD
  | _ => .error ("Unsupported method: " ++ method)

/-- The Rust cast `timeout_secs as u64` on an `i32` (lib.rs line 76):
sign-extend and reinterpret, i.e. reduce modulo `2^64`. -/
def timeoutToSecs (t : Int) : Nat :=
  (t % (2 ^ 64 : Int)).toNat

/-- The fully configured outgoing request handed to the transport
(method fixed, timeout cast applied, caller headers applied verbatim,
optional body), lib.rs lines 75-89. -/
structure OutgoingRequest where
  method : Method
  url : String
  timeoutSecs : Option Nat
  headers : HMap
  body : Option String
deriving Repr

/-- Build the outgoing request from the dispatcher's arguments
(lib.rs lines 75-89): the timeout, when given, is `t as u64` seconds;
every caller header entry is applied with its key casing as given. -/
def buildRequest (m : Method) (url : String) (headers : Option HMap)
    (body : Option String) (timeout : Option Int) : OutgoingRequest :=
  { method := m
    url := url
    timeoutSecs := timeout.map timeoutToSecs
    headers := headers.getD []
    body := body }

/-- What the transport hands back on success: raw status, the raw
header list (`headers_names` paired with each `header(name)` value)
and the result of `into_string()` on the body (which itself can fail). -/
structure RawResponse where
  status : Int
  rawHeaders : List (String × String)
  bodyText : Except String String

/-- The transport adapter (the `ureq` agent): one blocking exchange. -/
abbrev Transport := OutgoingRequest → Except String RawResponse

/-- Header normalization of `request` (lib.rs lines 95-100): every raw
header is inserted under its lower-cased name, last insert wins. -/
def normalizeHeaders (raw : List (String × String)) : HMap :=
  raw.foldl (fun acc p => hmInsert acc (strLower p.1) p.2) []

/-- `request` (lib.rs lines 58-113).  Method resolution happens first,
so an unsupported method fails before the transport is ever invoked;
transport failures are wrapped as `HTTP request failed`, body decoding
failures as `Response body error`; on success the response's status,
lower-cased-key header mapping and body text form the `HttpResponse`. -/
def request (transport : Transport) (method url : String) (headers : Option HMap)
    (body : Option String) (timeout : Option Int) : Except String HttpResponse :=
  match resolveMethod method with
  | .error e => .error e
  | .ok m =>
      match transport (buildRequest m url headers body timeout) with
      | .error e => .error ("HTTP request failed: " ++ e)
      | .ok resp =>
          match resp.bodyText with
          | .error e => .error ("Response body error: " ++ e)
          | .ok b =>
              .ok { status := resp.status
                    headers := normalizeHeaders resp.rawHeaders
                    body := b }

/-- The content-type default of `post`/`put`/`patch` (lib.rs lines
128-133, 145-149, 167-171): if the mapping contains neither the exact
key `content-type` nor the exact key `Content-Type`, insert
`Content-Type: application/json`. -/
def defaultContentType (headers : HMap) : HMap :=
  if !hmContains headers "content-type" && !hmContains headers "Content-Type" then
    hmInsert headers "Content-Type" "application/json"
  else headers

/-- `get` (lib.rs lines 117-119). -/
def get (transport : Transport) (url : String) (headers : Option HMap) :
    Except String HttpResponse :=
  request transport "GET" url headers none (some 30)

/-- `post` (lib.rs lines 123-136). -/
def post (transport : Transport) (url : String) (body : Option String)
    (headers : Option HMap) : Except String HttpResponse :=
  request transport "POST" url (some (defaultContentType (headers.getD []))) body (some 30)

/-- `put` (lib.rs lines 140-152). -/
def put (transport : Transport) (url : String) (body : Option String)
    (headers : Option HMap) : Except String HttpResponse :=
  request transport "PUT" url (some (defaultContentType (headers.getD []))) body (some 30)

/-- `delete` (lib.rs lines 156-158). -/
def delete (transport : Transport) (url : String) (headers : Option HMap) :
    Except String HttpResponse :=
  request transport "DELETE" url headers none (some 30)

/-- `patch` (lib.rs lines 162-174). -/
def patch (transport : Transport) (url : String) (body : Option String)
    (headers : Option HMap) : Except String HttpResponse :=
  request transport "PATCH" url (some (defaultContentType (headers.getD []))) body (some 30)

/-- `head` (lib.rs lines 178-180). -/
def head (transport : Transport) (url : String) (headers : Option HMap) :
    Except String HttpResponse :=
  request transport "HEAD" url headers none (some 30)

/-- `options` (lib.rs lines 184-186): forwards the literal string
`"OPTIONS"` to the dispatcher. -/
def options (transport : Transport) (url : String) (headers : Option HMap) :
    Except String HttpResponse :=
  request transport "OPTIONS" url headers none (some 30)

/-- UTF-8 byte sequence of a character, as `Nat`s (the bytes
`urlencoding::encode` iterates over). -/
def utf8Bytes (c : Char) : List Nat :=
  let n := c.toNat
  if n < 0x80 then [n]
  else if n < 0x800 then [0xC0 + n / 64, 0x80 + n % 64]
  else if n < 0x10000 then
    [0xE0 + n / 4096, 0x80 + (n / 64) % 64, 0x80 + n % 64]
  else
    [0xF0 + n / 262144, 0x80 + (n / 4096) % 64, 0x80 + (n / 64) % 64, 0x80 + n % 64]

/-- Upper-case hexadecimal digit, as `urlencoding` emits. -/
def hexUpper (n : Nat) : String :=
  String.singleton (if n < 10 then Char.ofNat (48 + n) else Char.ofNat (55 + n))

/-- One byte of `urlencoding::encode`: RFC 3986 unreserved bytes
(ASCII alphanumerics and `-` `.` `_` `~`) pass through, every other
byte becomes `%XX` with upper-case hex. -/
def encodeByte (n : Nat) : String :=
  if (48 ≤ n && n ≤ 57) || (65 ≤ n && n ≤ 90) || (97 ≤ n && n ≤ 122)
      || n = 45 || n = 46 || n = 95 || n = 126 then
    String.singleton (Char.ofNat n)
  else "%" ++ hexUpper (n / 16) ++ hexUpper (n % 16)

/-- `urlencoding::encode`: percent-encode the UTF-8 bytes of a string. -/
def urlencode (s : String) : String :=
  String.join (s.data.map (fun c => String.join ((utf8Bytes c).map encodeByte)))

/-- `Vec::join(sep)` on a vector of strings. -/
def joinSep (sep : String) : List String → String
  | [] => ""
  | [x] => x
  | x :: y :: rest => x ++ sep ++ joinSep sep (y :: rest)

/-- `build_query` (lib.rs lines 192-198): encode key and value of every
pair independently, join each pair with `=`, join the pairs with `&`. -/
def build_query (params : HMap) : String :=
  joinSep "&" (params.map (fun p => urlencode p.1 ++ "=" ++ urlencode p.2))

/-- What the external `url::Url` parser yields of a parsed absolute URL:
`scheme()`, `host_str()`, `path()`, `query()` and `port()` (the latter
present only when an explicit, non-default port appears in the URL). -/
structure ParsedUrl where
  scheme : String
  hostStr : Option String
  path : String
  query : Option String
  port : Option Nat
deriving DecidableEq, Repr

/-- `parse_url` (lib.rs lines 201-221).  The external `url::Url::parse`
is passed in as `urlParse`; on success the mapping always receives
`scheme`, `host` (empty string when the URL has no host) and `path`,
receives `query` only when a query is present and `port` only when the
parser reports a port; on failure the parser's message is wrapped in
`Invalid URL`. -/
def parse_url (urlParse : String → Except String ParsedUrl) (url : String) :
    Except String HMap :=
  match urlParse url with
  | .ok parsed =>
      let result := hmInsert [] "scheme" parsed.scheme
      let result := hmInsert result "host" (parsed.hostStr.getD "")
      let result := hmInsert result "path" parsed.path
      let result := match parsed.query with
                    | some q => hmInsert result "query" q
                    | none => result
      let result := match parsed.port with
                    | some p => hmInsert result "port" (toString p)
                    | none => result
      .ok result
  | .error e => .error ("Invalid URL: " ++ e)

/-! Helper lemmas about the mapping operations. -/

lemma hmInsert_of_not_contains (m : HMap) (k v : String)
    (h : hmContains m k = false) : hmInsert m k v = m ++ [(k, v)] := by
  simp [hmInsert, h]

lemma hmContains_append (a b : HMap) (k : String) :
    hmContains (a ++ b) k = (hmContains a k || hmContains b k) := by
  simp [hmContains, List.any_append]

lemma length_hmInsert (m : HMap) (k v : String) :
    m.length ≤ (hmInsert m k v).length := by
  unfold hmInsert
  split <;> simp

lemma length_le_foldl_jsonIns (m : List (String × Json)) :
    ∀ acc : HMap, acc.length ≤ (m.foldl jsonIns acc).length := by
  induction m with
  | nil => simp
  | cons p rest ih =>
      intro acc
      calc acc.length ≤ (jsonIns acc p).length := length_hmInsert ..
        _ ≤ _ := ih (jsonIns acc p)

lemma foldl_jsonIns_nil (m : List (String × Json))
    (h : m.foldl jsonIns ([] : HMap) = []) : m = [] := by
  cases m with
  | nil => rfl
  | cons p rest =>
      exfalso
      have h1 : (1 : Nat) ≤ ((p :: rest).foldl jsonIns ([] : HMap)).length := by
        have : (p :: rest).foldl jsonIns ([] : HMap)
            = rest.foldl jsonIns (jsonIns [] p) := by simp
        rw [this]
        exact le_trans (by simp [jsonIns, hmInsert, hmContains]) (length_le_foldl_jsonIns rest _)
      rw [h] at h1
      simp at h1

lemma foldl_jsonIns_eq_map (m : List (String × Json)) :
    ∀ acc : HMap,
      (∀ k, k ∈ m.map Prod.fst → hmContains acc k = false) →
      (m.map Prod.fst).Nodup →
      m.foldl jsonIns acc = acc ++ m.map (fun p => (p.1, p.2.serialize)) := by
  induction m with
  | nil => simp
  | cons p rest ih =>
      intro acc hdisj hnd
      have hp : hmContains acc p.1 = false := hdisj p.1 (by simp)
      have hstep : jsonIns acc p = acc ++ [(p.1, p.2.serialize)] :=
        hmInsert_of_not_contains _ _ _ hp
      have hnd2 : (p.1 :: rest.map Prod.fst).Nodup := by
        simpa only [List.map_cons] using hnd
      have hnd' := List.nodup_cons.mp hnd2
      have hrest : ∀ k, k ∈ rest.map Prod.fst →
          hmContains (acc ++ [(p.1, p.2.serialize)]) k = false := by
        intro k hk
        rw [hmContains_append]
        have h1 : hmContains acc k = false := hdisj k (by simp [hk])
        have h2 : hmContains [(p.1, p.2.serialize)] k = false := by
          have : p.1 ≠ k := fun he => hnd'.1 (he ▸ hk)
          simp [hmContains, this]
        simp [h1, h2]
      calc (p :: rest).foldl jsonIns acc
          = rest.foldl jsonIns (jsonIns acc p) := by simp
        _ = rest.foldl jsonIns (acc ++ [(p.1, p.2.serialize)]) := by rw [hstep]
        _ = acc ++ [(p.1, p.2.serialize)] ++ rest.map (fun p => (p.1, p.2.serialize)) :=
            ih _ hrest hnd'.2
        _ = acc ++ (p :: rest).map (fun p => (p.1, p.2.serialize)) := by simp

/-! The claims. -/

/-- C1: the dispatcher's method `match` (lib.rs 65-73) has no
`"OPTIONS"` arm, so the method string `OPTIONS` — and with it the
`options` shorthand, which always forwards the literal `"OPTIONS"` —
fails with `Unsupported method: OPTIONS` for every transport, every
URL and every header mapping, contradicting the claim that all seven
verbs, OPTIONS included, are accepted. -/
theorem C1_options_unsupported :
    resolveMethod "OPTIONS" = Except.error "Unsupported method: OPTIONS"
    ∧ (∀ (t : Transport) (url : String) (hs : Option HMap),
        options t url hs = Except.error "Unsupported method: OPTIONS")
    ∧ (∀ t : Transport,
        options t "http://example.com" none
          = Except.error "Unsupported method: OPTIONS") := by
  refine ⟨rfl, fun t url hs => rfl, fun t => rfl⟩

/-- C2: `post`/`put`/`patch` insert `Content-Type: application/json`
exactly when the caller's mapping contains neither the exact key
`content-type` nor the exact key `Content-Type`; if either exact key
is present nothing is added, and a key in any other casing (e.g.
`CONTENT-TYPE`) is not recognized, so the default is added alongside. -/
theorem C2_content_type_default (hs : HMap) :
    (hmContains hs "content-type" = false → hmContains hs "Content-Type" = false →
      defaultContentType hs = hs ++ [("Content-Type", "application/json")])
    ∧ ((hmContains hs "content-type" = true ∨ hmContains hs "Content-Type" = true) →
      defaultContentType hs = hs)
    ∧ (∀ (t : Transport) (url : String) (b : Option String) (h : Option HMap),
        post t url b h
          = request t "POST" url (some (defaultContentType (h.getD []))) b (some 30))
    ∧ (∀ (t : Transport) (url : String) (b : Option String) (h : Option HMap),
        put t url b h
          = request t "PUT" url (some (defaultContentType (h.getD []))) b (some 30))
    ∧ (∀ (t : Transport) (url : String) (b : Option String) (h : Option HMap),
        patch t url b h
          = request t "PATCH" url (some (defaultContentType (h.getD []))) b (some 30))
    ∧ defaultContentType [("CONTENT-TYPE", "text/plain")]
        = [("CONTENT-TYPE", "text/plain"), ("Content-Type", "application/json")] := by
  refine ⟨fun h1 h2 => ?_, fun h => ?_, fun t url b h => rfl, fun t url b h => rfl,
    fun t url b h => rfl, by decide⟩
  · rw [defaultContentType, if_pos (by simp [h1, h2]), hmInsert_of_not_contains _ _ _ h2]
  · rw [defaultContentType, if_neg]
    rcases h with h | h <;> simp [h]

/-- C2 witness: with an empty caller mapping the default is inserted. -/
theorem C2_witness :
    defaultContentType [] = [] ++ [("Content-Type", "application/json")] :=
  (C2_content_type_default []).1 (by decide) (by decide)

/-- C3: when the body parses to a JSON object with (necessarily
distinct) keys, `json()` yields exactly the object's keys, each mapped
to the member value re-serialized to its canonical text (`5` to `"5"`,
`"x"` to the quoted text); when the body parses to a non-object,
`json()` yields the empty mapping without error. -/
theorem C3_json_flatten (parse : String → Except String Json) (r : HttpResponse)
    (v : Json) (h : parse r.body = Except.ok v) :
    (∀ m, v = Json.obj m → (m.map Prod.fst).Nodup →
      r.json parse = Except.ok (m.map (fun p => (p.1, p.2.serialize))))
    ∧ (v.isObj = false → r.json parse = Except.ok [])
    ∧ Json.serialize (Json.num 5) = "5"
    ∧ Json.serialize (Json.str "x") = "\"x\"" := by
  refine ⟨fun m hm hnd => ?_, fun hobj => ?_, rfl, rfl⟩
  · subst hm
    rw [HttpResponse.json, h]
    show Except.ok (m.foldl jsonIns []) = _
    rw [foldl_jsonIns_eq_map m [] (fun k _ => rfl) hnd]
    rfl
  · rw [HttpResponse.json, h]
    cases v <;> simp_all [Json.isObj]

/-- C3 witness: a parser yielding the object of the spec's example
makes `json()` yield the flattened, re-serialized mapping. -/
theorem C3_witness :
    (HttpResponse.mk 200 [] "\x7b\"a\":1,\"b\":\"x\"\x7d").json
        (fun _ => Except.ok (Json.obj [("a", Json.num 1), ("b", Json.str "x")]))
      = Except.ok [("a", "1"), ("b", "\"x\"")] :=
  (C3_json_flatten (fun _ => Except.ok (Json.obj [("a", Json.num 1), ("b", Json.str "x")]))
    (HttpResponse.mk 200 [] "\x7b\"a\":1,\"b\":\"x\"\x7d")
    (Json.obj [("a", Json.num 1), ("b", Json.str "x")]) rfl).1
    [("a", Json.num 1), ("b", Json.str "x")] rfl (by decide)

/-- C4 counterexample: the claim that an empty-mapping result arises
only from a **non-object** top-level value is false — a body parsing
to the empty object `\x7b\x7d` also yields the empty mapping. -/
theorem C4_counterexample :
    ¬ (∀ (parse : String → Except String Json) (r : HttpResponse),
        r.json parse = Except.ok [] →
        ∃ v, parse r.body = Except.ok v ∧ v.isObj = false) := by
  intro hclaim
  obtain ⟨v, hv, hobj⟩ :=
    hclaim (fun _ => Except.ok (Json.obj [])) (HttpResponse.mk 200 [] "\x7b\x7d") rfl
  cases hv
  simp [Json.isObj] at hobj

/-- C4 (amended): a parse failure makes `json()` fail with the wrapped
`JSON parse error` and never yields a mapping; any yielded mapping —
the empty one included — comes from a successful parse, the empty one
only from a non-object top-level value or an object with no members. -/
theorem C4_no_silent_fallback (parse : String → Except String Json) (r : HttpResponse) :
    (∀ e, parse r.body = Except.error e →
      r.json parse = Except.error ("JSON parse error: " ++ e))
    ∧ (∀ hm, r.json parse = Except.ok hm → ∃ v, parse r.body = Except.ok v)
    ∧ (r.json parse = Except.ok [] →
      ∃ v, parse r.body = Except.ok v ∧ (v.isObj = false ∨ v = Json.obj [])) := by
  refine ⟨fun e he => ?_, fun hm hok => ?_, fun hnil => ?_⟩
  · rw [HttpResponse.json, he]
  · rw [HttpResponse.json] at hok
    cases hp : parse r.body with
    | ok v => exact ⟨v, rfl⟩
    | error e => rw [hp] at hok; exact absurd hok (by simp)
  · rw [HttpResponse.json] at hnil
    cases hp : parse r.body with
    | error e => rw [hp] at hnil; exact absurd hnil (by simp)
    | ok v =>
        rw [hp] at hnil
        refine ⟨v, rfl, ?_⟩
        cases v with
        | obj m =>
            right
            have : m.foldl jsonIns [] = [] := by simpa using hnil
            rw [foldl_jsonIns_nil m this]
        | null => left; rfl
        | bool b => left; rfl
        | num n => left; rfl
        | str s => left; rfl
        | arr xs => left; rfl

/-- C4 witness: a failing parser on body `not json` makes `json()`
fail with the wrapped message. -/
theorem C4_witness :
    (HttpResponse.mk 200 [] "not json").json (fun _ => Except.error "expected value")
      = Except.error ("JSON parse error: " ++ "expected value") :=
  (C4_no_silent_fallback (fun _ => Except.error "expected value")
    (HttpResponse.mk 200 [] "not json")).1 "expected value" rfl

/-- C5: `headers(name)` lower-cases the queried name and looks it up
in the stored mapping; the dispatcher stores keys lower-cased, so a
response whose transport headers included `X-Test: 1` answers `1` for
the queries `x-test`, `X-TEST` and `X-Test`. -/
theorem C5_header_lookup (r : HttpResponse) (n : String)
    (h : r.headers = normalizeHeaders [("X-Test", "1")]) :
    r.headersGet n = hmGet r.headers (strLower n)
    ∧ r.headersGet "x-test" = some "1"
    ∧ r.headersGet "X-TEST" = some "1"
    ∧ r.headersGet "X-Test" = some "1" := by
  refine ⟨rfl, ?_, ?_, ?_⟩ <;> rw [HttpResponse.headersGet, h] <;> decide

/-- C5 witness: the case-insensitive lookups on a concrete response. -/
theorem C5_witness :
    (HttpResponse.mk 200 (normalizeHeaders [("X-Test", "1")]) "").headersGet "X-TEST"
        = hmGet (HttpResponse.mk 200 (normalizeHeaders [("X-Test", "1")]) "").headers
            (strLower "X-TEST")
    ∧ (HttpResponse.mk 200 (normalizeHeaders [("X-Test", "1")]) "").headersGet "x-test"
        = some "1"
    ∧ (HttpResponse.mk 200 (normalizeHeaders [("X-Test", "1")]) "").headersGet "X-TEST"
        = some "1"
    ∧ (HttpResponse.mk 200 (normalizeHeaders [("X-Test", "1")]) "").headersGet "X-Test"
        = some "1" :=
  C5_header_lookup (HttpResponse.mk 200 (normalizeHeaders [("X-Test", "1")]) "") "X-TEST" rfl

/-- C6: on every successfully parsed URL the result mapping holds
`scheme`, `host` (empty string when the URL has no host) and `path`;
it holds `query` exactly when a query is present (with its text) and
`port` exactly when the parser reports an explicit port (printed in
decimal) — `hmGet m k = none` says the key is absent altogether. -/
theorem C6_parse_url_keys (up : String → Except String ParsedUrl) (url : String)
    (p : ParsedUrl) (h : up url = Except.ok p) :
    ∃ m, parse_url up url = Except.ok m
      ∧ hmGet m "scheme" = some p.scheme
      ∧ hmGet m "host" = some (p.hostStr.getD "")
      ∧ hmGet m "path" = some p.path
      ∧ hmGet m "query" = p.query
      ∧ hmGet m "port" = p.port.map (fun n => toString n) := by
  rw [parse_url, h]
  rcases p with ⟨s, host, path, q, port⟩
  cases q <;> cases port <;> exact ⟨_, rfl, rfl, rfl, rfl, rfl, rfl⟩

/-- C6 witness: the spec's example URL, with the external parser
answering its components. -/
theorem C6_witness :
    ∃ m, parse_url
          (fun _ => Except.ok (ParsedUrl.mk "https" (some "example.com") "/p"
            (some "q=1") (some 8080)))
          "https://example.com:8080/p?q=1"
        = Except.ok m
      ∧ hmGet m "scheme" = some "https"
      ∧ hmGet m "host" = some ((some "example.com").getD "")
      ∧ hmGet m "path" = some "/p"
      ∧ hmGet m "query" = some "q=1"
      ∧ hmGet m "port" = (some 8080).map (fun n => toString n) :=
  C6_parse_url_keys
    (fun _ => Except.ok (ParsedUrl.mk "https" (some "example.com") "/p"
      (some "q=1") (some 8080)))
    "https://example.com:8080/p?q=1"
    (ParsedUrl.mk "https" (some "example.com") "/p" (some "q=1") (some 8080)) rfl

/-- C7: when the external URL parser fails, `parse_url` fails with the
wrapped `Invalid URL` message and yields no mapping. -/
theorem C7_invalid_url (up : String → Except String ParsedUrl) (url e : String)
    (h : up url = Except.error e) :
    parse_url up url = Except.error ("Invalid URL: " ++ e) := by
  rw [parse_url, h]

/-- C7 witness: `not a url` with the parser's actual message. -/
theorem C7_witness :
    parse_url (fun _ => Except.error "relative URL without a base") "not a url"
      = Except.error ("Invalid URL: " ++ "relative URL without a base") :=
  C7_invalid_url (fun _ => Except.error "relative URL without a base") "not a url"
    "relative URL without a base" rfl

/-- C8: `build_query` percent-encodes each key and value
independently, joins each pair as `key=value` and joins the pairs with
`&`; on the spec's example mapping the two pairs are `a=1` and
`b=x%20y`, in either iteration order. -/
theorem C8_build_query :
    (∀ k v : String, build_query [(k, v)] = urlencode k ++ "=" ++ urlencode v)
    ∧ (∀ (p : String × String) (rest : HMap), rest ≠ [] →
        build_query (p :: rest)
          = urlencode p.1 ++ "=" ++ urlencode p.2 ++ "&" ++ build_query rest)
    ∧ build_query [("a", "1"), ("b", "x y")] = "a=1&b=x%20y"
    ∧ build_query [("b", "x y"), ("a", "1")] = "b=x%20y&a=1" := by
  refine ⟨fun k v => rfl, fun p rest hrest => ?_, by decide, by decide⟩
  cases rest with
  | nil => exact absurd rfl hrest
  | cons q rest' => simp [build_query, joinSep, String.append_assoc]

/-- C8 witness: the two-pair example splits as pair, separator, rest. -/
theorem C8_witness :
    build_query [("a", "1"), ("b", "x y")]
      = urlencode ("a", "1").1 ++ "=" ++ urlencode ("a", "1").2 ++ "&"
          ++ build_query [("b", "x y")] :=
  C8_build_query.2.1 ("a", "1") [("b", "x y")] (by decide)

/-- C9: an `i32` timeout is cast to `u64` by wrapping modulo `2^64`,
so every negative `i32` value `t` configures `2^64 - |t|` seconds —
`-1` configures `2^64 - 1` — and the outgoing request is built with
that duration; no sign or magnitude validation happens. -/
theorem C9_timeout_wrap (t : Int) (h1 : -(2 ^ 31) ≤ t) (h2 : t < 0) :
    timeoutToSecs t = 2 ^ 64 - t.natAbs
    ∧ timeoutToSecs (-1) = 2 ^ 64 - 1
    ∧ ∀ (m : Method) (url : String) (hs : Option HMap) (b : Option String),
        (buildRequest m url hs b (some t)).timeoutSecs = some (2 ^ 64 - t.natAbs) := by
  have key : ∀ u : Int, -(2 ^ 31) ≤ u → u < 0 → timeoutToSecs u = 2 ^ 64 - u.natAbs := by
    intro u hu1 hu2
    rw [timeoutToSecs]
    have hpow : (2 : Int) ^ 64 = 18446744073709551616 := by norm_num
    have hpow31 : (2 : Int) ^ 31 = 2147483648 := by norm_num
    rw [hpow]
    rw [hpow31] at hu1
    omega
  refine ⟨key t h1 h2, ?_, fun m url hs b => ?_⟩
  · have := key (-1) (by norm_num) (by norm_num)
    simpa using this
  · show some (timeoutToSecs t) = some (2 ^ 64 - t.natAbs)
    rw [key t h1 h2]

/-- C9 witness: timeout `-1` wraps to `2^64 - 1` seconds. -/
theorem C9_witness :
    timeoutToSecs (-1) = 2 ^ 64 - Int.natAbs (-1)
    ∧ timeoutToSecs (-1) = 2 ^ 64 - 1
    ∧ ∀ (m : Method) (url : String) (hs : Option HMap) (b : Option String),
        (buildRequest m url hs b (some (-1))).timeoutSecs
          = some (2 ^ 64 - Int.natAbs (-1)) :=
  C9_timeout_wrap (-1) (by norm_num) (by norm_num)

/-- C10: `__construct` yields status 200, an empty header mapping and
an empty body. -/
theorem C10_construct :
    HttpResponse.construct.status = 200
    ∧ HttpResponse.construct.headers = []
    ∧ HttpResponse.construct.body = "" :=
  ⟨rfl, rfl, rfl⟩

end ElephantNet
